import Mathlib

/-!
Verification development for the job execution engine of this repository
(`@angular-devkit/architect` jobs: registry, scheduler, dispatcher, the
`createJobHandler` lifting helper) and the `addUndefinedDefaults` schema
transform of `@angular-devkit/core`.

The implementation files (`simple-registry.ts`, `simple-scheduler.ts`,
`dispatcher.ts`, `create-job-handler.ts`, `transforms.ts`) are not present in
this source snapshot; only their test suites (`dispatcher_spec.ts`,
`transforms_spec.ts`) and callers are.  Following the specification document,
the missing components are modelled here from the spec's own description of
their behavior (sections 3, 4, 6, 7 of the spec), and the in-repository test
suites are used as the pinned concrete behaviors every model must reproduce.
-/

/-- JSON values.  Numbers are modelled as integers (every number appearing in
the claims and the test suites is integral).  An object member maps a key to
`Option JsonValue`: `some v` is a defined value, `none` is a key that is
present but holds JavaScript `undefined` (assigning `undefined` to a property
creates the key; this distinction is observable through
`Object.getOwnPropertyNames` and drives the recursive visitor below). -/
inductive JsonValue where
  | null : JsonValue
  | bool : Bool → JsonValue
  | num : Int → JsonValue
  | str : String → JsonValue
  | arr : List JsonValue → JsonValue
  | obj : List (String × Option JsonValue) → JsonValue

/-- The seven primitive JSON-schema type names. -/
inductive JsonType where
  | tBoolean | tNumber | tInteger | tString | tObject | tArray | tNull
  deriving DecidableEq, Repr

/-- Modelled from the spec: the JSON-schema fragment consumed through the
Schema Validation Engine contract (section 6).  `any` is the boolean schema
`true` ("accept anything", the default for a missing schema, section 4.3).
`node` is a schema object with the keyword fields used by this repository's
schemas: `type`, `default`, `properties`, `items`, `allOf`, `oneOf`, `anyOf`,
`not`, `$ref`.  A field holds `none` when the keyword is absent (absence is
observable: the transform checks `schema.properties &&`). -/
inductive Schema where
  | any : Schema
  | node :
      Option (List JsonType) →        -- type
      Option JsonValue →              -- default
      Option (List (String × Schema)) →  -- properties
      Option Schema →                 -- items
      Option (List Schema) →          -- allOf
      Option (List Schema) →          -- oneOf
      Option (List Schema) →          -- anyOf
      Option Schema →                 -- not
      Option String →                 -- $ref
      Schema

namespace Schema

def typeField : Schema → Option (List JsonType)
  | .any => none
  | .node t _ _ _ _ _ _ _ _ => t

def defaultField : Schema → Option JsonValue
  | .any => none
  | .node _ d _ _ _ _ _ _ _ => d

def propertiesField : Schema → Option (List (String × Schema))
  | .any => none
  | .node _ _ p _ _ _ _ _ _ => p

def itemsField : Schema → Option Schema
  | .any => none
  | .node _ _ _ i _ _ _ _ _ => i

def allOfField : Schema → Option (List Schema)
  | .any => none
  | .node _ _ _ _ a _ _ _ _ => a

def oneOfField : Schema → Option (List Schema)
  | .any => none
  | .node _ _ _ _ _ o _ _ _ => o

def anyOfField : Schema → Option (List Schema)
  | .any => none
  | .node _ _ _ _ _ _ a _ _ => a

def notField : Schema → Option Schema
  | .any => none
  | .node _ _ _ _ _ _ _ n _ => n

def refField : Schema → Option String
  | .any => none
  | .node _ _ _ _ _ _ _ _ r => r

/-- A schema object with every keyword absent (`{}`), also an
"accept anything" schema. -/
def emptyNode : Schema := .node none none none none none none none none none

end Schema

/-- Look a key up in a JSON object member list: `none` = key absent,
`some none` = key present holding `undefined`, `some (some v)` = defined. -/
def objLookup (members : List (String × Option JsonValue)) (key : String) :
    Option (Option JsonValue) :=
  (members.find? (fun m => m.1 = key)).map Prod.snd

/-- Set a key in a JSON object member list, JavaScript style: an existing key
keeps its position, a new key is appended (JS objects preserve insertion
order for the string keys used here). -/
def objSet (members : List (String × Option JsonValue)) (key : String)
    (v : Option JsonValue) : List (String × Option JsonValue) :=
  if (members.find? (fun m => m.1 = key)).isSome then
    members.map (fun m => if m.1 = key then (key, v) else m)
  else
    members ++ [(key, v)]

/-- JavaScript loose `value == undefined`: true for both `undefined` and
`null` (that is also the test `??=` performs). -/
def isNullish : Option JsonValue → Bool
  | none => true
  | some .null => true
  | some _ => false

/-- `typeof`-style primitive type of a defined JSON value. -/
def typeOfJson : JsonValue → JsonType
  | .null => .tNull
  | .bool _ => .tBoolean
  | .num _ => .tNumber
  | .str _ => .tString
  | .arr _ => .tArray
  | .obj _ => .tObject

example : objLookup [("a", some (.num 1)), ("b", none)] "b" = some none := rfl
example : objSet ([] : List (String × Option JsonValue)) "x" none = [("x", none)] := rfl
example : isNullish (some .null) = true := rfl

/-- Is this schema the boolean schema `true` (not a schema object)?  Mirrors
the source's `isJsonObject(schemaObject)` guards. -/
def Schema.isAny : Schema → Bool
  | .any => true
  | .node _ _ _ _ _ _ _ _ _ => false

/-- Look a property's sub-schema up (`schema.properties?.[key]`): `none` when
the `properties` keyword is absent or the key is not declared. -/
def schemaPropLookup (s : Schema) (key : String) : Option Schema :=
  match s.propertiesField with
  | none => none
  | some ps => (ps.find? (fun p => p.1 = key)).map Prod.snd

/-- All seven primitive JSON-schema types, the starting potential set when a
schema constrains nothing. -/
def allJsonTypes : List JsonType :=
  [.tBoolean, .tNumber, .tInteger, .tString, .tObject, .tArray, .tNull]

/-- Modelled from the spec: the Schema Validation Engine's type-inference
helper used by the defaults transform (the engine is an external collaborator,
its `transforms.ts`/`utility.ts` sources are absent from this snapshot).  It
computes the set of primitive types a value could have and still satisfy the
schema: start from the `type` keyword (or all seven types), then remove the
types admitted by `not`, intersect with each `allOf` member's types, and
intersect with the union of the `oneOf` members' types and of the `anyOf`
members' types.  The set is kept as a duplicate-free sublist of
`allJsonTypes`. -/
def getTypesOfSchema : Nat → Schema → List JsonType
  | _, .any => allJsonTypes
  | 0, _ => []
  | fuel+1, s =>
    let potentials := match s.typeField with
      | some ts => allJsonTypes.filter (fun t => t ∈ ts)
      | none => allJsonTypes
    let potentials := match s.notField with
      | some ns =>
        let notTypes := getTypesOfSchema fuel ns
        potentials.filter (fun t => t ∉ notTypes)
      | none => potentials
    let potentials := match s.allOfField with
      | some subs =>
        subs.foldl (fun acc sub =>
          let ts := getTypesOfSchema fuel sub
          acc.filter (fun t => t ∈ ts)) potentials
      | none => potentials
    let potentials := match s.oneOfField with
      | some subs =>
        let options := subs.foldl (fun acc sub => acc ++ getTypesOfSchema fuel sub) []
        potentials.filter (fun t => t ∈ options)
      | none => potentials
    let potentials := match s.anyOfField with
      | some subs =>
        let options := subs.foldl (fun acc sub => acc ++ getTypesOfSchema fuel sub) []
        potentials.filter (fun t => t ∈ options)
      | none => potentials
    potentials

/-- Among `oneOf`/`anyOf` branches, locate the first schema object declaring
every property the value's object contains (`propertySchemas.find(...)` in the
transform). -/
def findAdjustedSchema (subs : List Schema) (keys : List String) : Option Schema :=
  subs.find? (fun sub =>
    !sub.isAny && keys.all (fun k => (schemaPropLookup sub k).isSome))

/-- One iteration of the transform's property loop (see
`addUndefinedDefaults`): `recur` re-processes a defined object member against
an adjusted `oneOf`/`anyOf` branch.  A `$schema` key and a boolean sub-schema
are skipped; a member reading `undefined` is assigned the sub-schema's
`default` (creating the key even when the default is itself `undefined`); a
defined object member is re-processed against the first branch declaring all
of its keys; any other member is left alone. -/
def fillPropsStep (recur : Schema → Option JsonValue → Option JsonValue)
    (acc : List (String × Option JsonValue)) (p : String × Schema) :
    List (String × Option JsonValue) :=
  let propName := p.1
  let schemaObject := p.2
  if propName = "$schema" || schemaObject.isAny then acc
  else
    match objLookup acc propName with
    | some (some v) =>
      match v with
      | .obj vms =>
        let propertySchemas :=
          schemaObject.oneOfField.orElse (fun _ => schemaObject.anyOfField)
        match propertySchemas with
        | none => acc
        | some subs =>
          match findAdjustedSchema subs (vms.map Prod.fst) with
          | some adjusted => objSet acc propName (recur adjusted (some v))
          | none => acc
      | _ => acc
    | _ => objSet acc propName schemaObject.defaultField

/-- The transform's whole property loop, left to right over the declared
properties. -/
def fillProps (recur : Schema → Option JsonValue → Option JsonValue)
    (ps : List (String × Schema)) (ms : List (String × Option JsonValue)) :
    List (String × Option JsonValue) :=
  ps.foldl (fillPropsStep recur) ms

/-- Modelled from the spec: the `addUndefinedDefaults` transform of the Schema
Validation Engine ("value (schema-applied, e.g. defaults injected)", spec
section 6; `transforms.ts` is absent from this snapshot, and the behavior is
the one pinned by `transforms_spec.ts`).  At one node: a `true` schema leaves
the value alone; otherwise the schema's `default` replaces a nullish value;
then a single injectable type is inferred from `getTypesOfSchema` — exactly
one potential type, or `array`/`object` disambiguated through the presence of
the `items`/`properties` keywords — and an empty array or object is created
for a still-undefined value of that type.  For an object, every declared
property that reads `undefined` has that property assigned the sub-schema's
`default` (creating the key even when the default is `undefined`), and a
defined object-valued property is re-processed against the first
`oneOf`/`anyOf` branch declaring all of its keys. -/
def addUndefinedDefaults : Nat → Schema → Option JsonValue → Option JsonValue
  | _, .any, value => value
  | 0, _, value => value
  | fuel+1, schema, value =>
    let value := if isNullish value then schema.defaultField else value
    let types := getTypesOfSchema (fuel+1) schema
    if types.isEmpty then value
    else
      let type : Option JsonType :=
        if types.length = 1 then types.head?
        else if types.length = 2 && (.tArray ∈ types) && (.tObject ∈ types) then
          some .tArray
        else if schema.propertiesField.isSome && (.tObject ∈ types) then some .tObject
        else if schema.itemsField.isSome && (.tArray ∈ types) then some .tArray
        else none
      match type with
      | some .tArray => if isNullish value then some (.arr []) else value
      | some .tObject =>
        let newValue : Option (List (String × Option JsonValue)) :=
          match value with
          | none => some []
          | some .null => some []
          | some (.obj ms) => some ms
          | some _ => none
        match newValue with
        | none => value
        | some ms =>
          some (.obj (fillProps (fun s v => addUndefinedDefaults fuel s v)
            (schema.propertiesField.getD []) ms))
      | _ => value

/-- Resolve a schema's `$ref` through the reference resolver (one step, as the
visitor does before invoking the transform). -/
def resolveSchema (res : String → Option Schema) (s : Schema) : Schema :=
  match s.refField with
  | some r => (res r).getD s
  | none => s

/-- Modelled from the spec: the registry's recursive JSON visitor applying a
pre-transform over a value guided by its schema (the engine applies the
transform at a node, then descends into the updated value's own keys using
`schema.properties[key]` — `undefined` sub-schemas stop the descent — and into
array items using `schema.items`).  `$ref` is resolved before the node is
transformed. -/
def visitTransform (res : String → Option Schema) :
    Nat → Schema → Option JsonValue → Option JsonValue
  | _, .any, value => value
  | 0, _, value => value
  | fuel+1, s, value =>
    let s := resolveSchema res s
    let value := addUndefinedDefaults (fuel+1) s value
    match value with
    | some (.arr items) =>
      match s.itemsField with
      | some si =>
        some (.arr (items.map (fun it => (visitTransform res fuel si (some it)).getD it)))
      | none => value
    | some (.obj ms) =>
      some (.obj (ms.map (fun m =>
        match schemaPropLookup s m.1 with
        | some ps => (m.1, visitTransform res fuel ps m.2)
        | none => m)))
    | _ => value

/-- One structured validation error of the Schema Validation Engine's outcome
(`errors: list<\x7bpath, message\x7d>`, spec section 6). -/
structure VError where
  path : List String
  message : String
  deriving DecidableEq, Repr

/-- Sum of a value's types for the `type` keyword: an integral number counts
as both `number` and `integer`. -/
def jsonHasType (v : JsonValue) : JsonType → Bool
  | .tNumber => (typeOfJson v) = .tNumber
  | .tInteger => (typeOfJson v) = .tNumber
  | t => (typeOfJson v) = t

/-- Modelled from the spec: the validation half of the Schema Validation
Engine contract (`validate(schema, value) -> { success, value, errors }`,
spec section 6) — it gathers **every** validation error instead of stopping
at the first, so a failure outcome aggregates the full error list.  Keywords
covered are the ones this repository's schemas use: `type`, `properties`
(present, defined members only — an `undefined` member validates like an
absent one), `items`, `allOf`, `anyOf`, `oneOf`, `not`, `$ref`. -/
def collectErrors (res : String → Option Schema) :
    Nat → Schema → List String → Option JsonValue → List VError
  | _, .any, _, _ => []
  | 0, _, path, _ => [⟨path, "maximum schema recursion depth exceeded"⟩]
  | fuel+1, s, path, value =>
    let s := resolveSchema res s
    match value with
    | none => []
    | some v =>
      let typeErrs := match s.typeField with
        | some ts =>
          if ts.any (fun t => jsonHasType v t) then [] else [⟨path, "type mismatch"⟩]
        | none => []
      let propErrs := match v, s.propertiesField with
        | .obj ms, some ps =>
          ps.foldl (fun acc p =>
            match objLookup ms p.1 with
            | some (some mv) => acc ++ collectErrors res fuel p.2 (path ++ [p.1]) (some mv)
            | _ => acc) []
        | _, _ => []
      let itemErrs := match v, s.itemsField with
        | .arr xs, some si =>
          (xs.enum.map (fun e =>
            collectErrors res fuel si (path ++ [toString e.1]) (some e.2))).flatten
        | _, _ => []
      let allOfErrs := match s.allOfField with
        | some subs => (subs.map (fun sub => collectErrors res fuel sub path (some v))).flatten
        | none => []
      let anyOfErrs := match s.anyOfField with
        | some subs =>
          if subs.any (fun sub => (collectErrors res fuel sub path (some v)).isEmpty) then []
          else [⟨path, "no anyOf branch matched"⟩]
        | none => []
      let oneOfErrs := match s.oneOfField with
        | some subs =>
          if subs.countP (fun sub => (collectErrors res fuel sub path (some v)).isEmpty) = 1
          then [] else [⟨path, "oneOf did not match exactly one branch"⟩]
        | none => []
      let notErrs := match s.notField with
        | some ns =>
          if (collectErrors res fuel ns path (some v)).isEmpty
          then [⟨path, "matched a forbidden schema"⟩] else []
        | none => []
      typeErrs ++ propErrs ++ itemErrs ++ allOfErrs ++ anyOfErrs ++ oneOfErrs ++ notErrs

/-- An empty reference resolver, for schemas without `$ref`. -/
def noRefs : String → Option Schema := fun _ => none

/-- Recursion budget of the modelled engine.  Recursion in the transform and
in validation descends along the schema's structure (a child of the value is
only visited when a sub-schema exists for it), so this cap only cuts schemas
nested deeper than 512 levels — far beyond anything in this repository; such
a schema is reported as a depth error instead of looping. -/
def engineFuel : Nat := 512

/-- Modelled from the spec: a compiled validator of the Schema Validation
Engine with the `addUndefinedDefaults` pre-transform installed (the usage
pinned by `transforms_spec.ts`): the transform is applied through the
recursive visitor, then the transformed value is validated; the outcome is
`(success, schema-applied value)`.  `res` resolves `$ref` targets (the
schema's `definitions`). -/
def registryValidate (res : String → Option Schema) (s : Schema)
    (data : Option JsonValue) : Bool × Option JsonValue :=
  let v := visitTransform res engineFuel s data
  ((collectErrors res engineFuel s [] v).isEmpty, v)

/-- Modelled from the spec: the engine's `validate(schema, value)` as consumed
by the job scheduler (spec sections 4.2 and 6): the value is schema-applied
(defaults injected), then checked; success yields the transformed value,
failure yields the aggregated error list. -/
def validateValue (s : Schema) (v : JsonValue) : Except (List VError) JsonValue :=
  let v := (visitTransform noRefs engineFuel s (some v)).getD v
  let errs := collectErrors noRefs engineFuel s [] (some v)
  if errs.isEmpty then .ok v else .error errs

/-- Does the engine accept this value for this schema? -/
def validatesOk (s : Schema) (v : JsonValue) : Bool :=
  match validateValue s v with
  | .ok _ => true
  | .error _ => false

/-- A job's opaque unique string identifier within one registry. -/
abbrev JobName := String

/-- Modelled from the spec: immutable metadata of a named job (spec section
3).  The `channels` and `extensions` maps play no part in any claim and are
omitted. -/
structure JobDescription where
  name : JobName
  argumentSchema : Schema
  outputSchema : Schema

/-- Modelled from the spec: the result of a plain callable lifted by
`createJobHandler` (spec section 4.3): a plain (or awaited) value, a rejected
deferred computation, or a lazily produced sequence of partial values. -/
inductive FnResult where
  | value : JsonValue → FnResult
  | rejected : String → FnResult
  | sequence : List JsonValue → FnResult

/-- Modelled from the spec: the executable part of a handler — either a
function-lifted body or a Dispatcher carrying its current default job (spec
sections 3 and 4.4). -/
inductive JobBody where
  | lifted : (JsonValue → FnResult) → JobBody
  | dispatcher : Option JobName → JobBody

/-- A JobDescription plus an executable body. -/
structure JobHandler where
  description : JobDescription
  body : JobBody

/-- Modelled from the spec: error taxonomy of the engine (spec section 7). -/
inductive JobError where
  | jobNameNotFound
  | duplicateJobName
  | argumentValidation : List VError → JobError
  | outputValidation : List VError → JobError
  | handlerExecution : String → JobError
  | noJobToHandleDispatch
  | noOutputProduced
  deriving DecidableEq, Repr

/-- A delivered event of one Job's life: its state transitions and output
emissions (spec section 3, `Queued, Started, Output, Success, Failure,
Aborted`).  Input requests and log messages play no part in any claim. -/
inductive JobEvent where
  | queued
  | started
  | output : JsonValue → JobEvent
  | success : JsonValue → JobEvent
  | failure : JobError → JobEvent
  | aborted

/-- Terminal states: `Success`, `Failure`, `Aborted`. -/
def isTerminalEvent : JobEvent → Bool
  | .success _ => true
  | .failure _ => true
  | .aborted => true
  | _ => false

def isOutputEvent : JobEvent → Bool
  | .output _ => true
  | _ => false

/-- Modelled from the spec: `createJobHandler`, the lifting helper (spec
section 4.3).  A missing `argumentSchema`/`outputSchema` option defaults to
the unconstrained "accept anything" schema. -/
def createJobHandler (fn : JsonValue → FnResult) (name : JobName)
    (argumentSchema : Option Schema) (outputSchema : Option Schema) : JobHandler :=
  ⟨⟨name, argumentSchema.getD .any, outputSchema.getD .any⟩, .lifted fn⟩

/-- Modelled from the spec: `createDispatcher` builds a special JobHandler
with no computation of its own and no default job yet (spec section 4.4). -/
def createDispatcher (description : JobDescription) : JobHandler :=
  ⟨description, .dispatcher none⟩

/-- Modelled from the spec: `setDefaultJob` records the fallback handler;
calling it again replaces the previous default (spec section 4.4). -/
def setDefaultJob (h : JobHandler) (n : JobName) : JobHandler :=
  { h with body := match h.body with
      | .dispatcher _ => .dispatcher (some n)
      | b => b }

/-- The in-memory registry: JobName → JobHandler, insertion-ordered. -/
abbrev Registry := List JobHandler

/-- `list()`: insertion-ordered enumeration of the registered names. -/
def regList (reg : Registry) : List JobName :=
  reg.map (fun h => h.description.name)

/-- `get(name)`: pure lookup. -/
def regGet (reg : Registry) (name : JobName) : Option JobHandler :=
  reg.find? (fun h => h.description.name = name)

/-- Modelled from the spec: `register(handler)` fails with
`DuplicateJobNameError` when the name is already present (never overwriting),
otherwise appends the handler, preserving insertion order (spec section
4.1). -/
def register (reg : Registry) (h : JobHandler) : Except JobError Registry :=
  if (regList reg).contains h.description.name then .error .duplicateJobName
  else .ok (reg ++ [h])

/-- The terminal event a lifted handler's final value produces: the value is
validated against the output schema; mismatch is a `Failure` with
`OutputValidationError`, otherwise a `Success` carrying the (schema-applied)
value (spec section 4.2, step 6). -/
def finalEvent (outputSchema : Schema) (v : JsonValue) : JobEvent :=
  match validateValue outputSchema v with
  | .ok v => .success v
  | .error errs => .failure (.outputValidation errs)

/-- Modelled from the spec: the events a function-lifted body contributes
after `Started` (spec section 4.3): a plain value becomes a single terminal
`Success` (no intermediate `Output`); a rejection maps to
`HandlerExecutionError`; a sequence emits each item as `Output` and its final
item becomes the terminal value, an empty sequence being
`NoOutputProducedError`. -/
def liftedEvents (outputSchema : Schema) : FnResult → List JobEvent
  | .value v => [finalEvent outputSchema v]
  | .rejected msg => [.failure (.handlerExecution msg)]
  | .sequence [] => [.failure .noOutputProduced]
  | .sequence (v :: vs) =>
    (v :: vs).map .output ++ [finalEvent outputSchema ((v :: vs).getLastD v)]

/-- Does this candidate's argument schema accept the argument (the check the
Dispatcher runs through the Schema Validation Engine)? -/
def acceptsArgument (h : JobHandler) (arg : JsonValue) : Bool :=
  validatesOk h.description.argumentSchema arg

/-- Modelled from the spec: the Dispatcher's selection algorithm (spec
section 4.4): enumerate every job of the owning registry except the
Dispatcher's own name, in registry insertion order; the first candidate whose
argument schema validates the argument wins (first-match); otherwise the
configured default, if any. -/
def dispatchTarget (reg : Registry) (own : JobName) (defaultJob : Option JobName)
    (arg : JsonValue) : Option JobName :=
  match (reg.filter (fun h => h.description.name ≠ own)).find?
      (fun h => acceptsArgument h arg) with
  | some h => some h.description.name
  | none => defaultJob

/-- The events of a nested Job the Dispatcher proxies onto its own Job: every
`Output` and the terminal state, verbatim (spec section 4.4, step 3; the
nested job's `Queued`/`Started` are subsumed by the Dispatcher's own, already
delivered, ones). -/
def proxyEvents (t : List JobEvent) : List JobEvent :=
  t.filter (fun e => isOutputEvent e || isTerminalEvent e)

/-- Modelled from the spec: one `schedule(name, argument)` call (spec section
4.2), parameterized by `recur`, the capability to schedule the nested job a
Dispatcher delegates to.  Returns the Job's full delivered event sequence and
the names of every handler whose body actually ran (a body that is never
invoked contributes nothing — this is the observable for "the handler body is
never invoked").
1. A name absent from the registry short-circuits `Queued → Failure` with
   `JobNameNotFoundError`.
2. The argument is validated against the handler's argument schema; failure
   short-circuits `Queued → Failure` with an `ArgumentValidationError`
   aggregating every validation error, the body never running.
3. Otherwise the validated (schema-applied) argument replaces the original,
   the Job starts, and the body's events follow: a lifted body contributes
   `liftedEvents`; a Dispatcher selects `dispatchTarget` and proxies the
   nested Job's events, failing with `NoJobToHandleDispatchError` when
   nothing is selected. -/
def scheduleWith (recur : JobName → JsonValue → List JobEvent × List JobName)
    (reg : Registry) (name : JobName) (arg : JsonValue) :
    List JobEvent × List JobName :=
  match regGet reg name with
  | none => ([.queued, .failure .jobNameNotFound], [])
  | some h =>
    match validateValue h.description.argumentSchema arg with
    | .error errs => ([.queued, .failure (.argumentValidation errs)], [])
    | .ok arg =>
      match h.body with
      | .lifted fn =>
        (.queued :: .started :: liftedEvents h.description.outputSchema (fn arg),
         [h.description.name])
      | .dispatcher defaultJob =>
        match dispatchTarget reg h.description.name defaultJob arg with
        | none => ([.queued, .started, .failure .noJobToHandleDispatch],
                   [h.description.name])
        | some target =>
          let inner := recur target arg
          (.queued :: .started :: proxyEvents inner.1, h.description.name :: inner.2)

/-- What a dispatch chain deeper than the budget produces: the job has
started, and its handler fails (a `HandlerExecutionError`, as for any error
raised during handler execution, spec section 4.2 step 7). -/
def outOfFuel : List JobEvent × List JobName :=
  ([.queued, .started, .failure (.handlerExecution "dispatch recursion limit reached")],
   [])

/-- `schedule` with an explicit dispatch-depth budget. -/
def scheduleAux : Nat → Registry → JobName → JsonValue → List JobEvent × List JobName
  | 0, reg, name, arg => scheduleWith (fun _ _ => outOfFuel) reg name arg
  | fuel+1, reg, name, arg => scheduleWith (fun n a => scheduleAux fuel reg n a) reg name arg

/-- The per-invocation execution handle: the delivered event sequence and the
names of the handler bodies that ran. -/
structure Job where
  events : List JobEvent
  invoked : List JobName

/-- Modelled from the spec: `Scheduler.schedule(name, argument) -> Job` (spec
section 4.2).  It never throws: every call returns a Job handle, failures
being surfaced purely as the Job's terminal `Failure` payload (spec section
7).  A dispatch chain longer than the registry itself can only be a cycle,
reported as a handler-execution failure. -/
def schedule (reg : Registry) (name : JobName) (arg : JsonValue) : Job :=
  let r := scheduleAux (reg.length + 1) reg name arg
  ⟨r.1, r.2⟩

/-- The value sequence carried by a Job's `outputChannel`: every `Output`
emission, and the terminal `Success` value (the suite consumes the final
value from `job.output`). -/
def outputChannelValues (t : List JobEvent) : List JsonValue :=
  t.filterMap (fun e => match e with
    | .output v => some v
    | .success v => some v
    | _ => none)

/-- Replay-latest semantics: the channel holds only the most recently
emitted value — each emission replaces, never appends (spec section 9). -/
def replayLatest (vs : List JsonValue) : Option JsonValue :=
  vs.getLast?

/-- What a subscriber attaching to the `outputChannel` after the fact
immediately receives: the most recent value only. -/
def Job.lateOutput (j : Job) : Option JsonValue :=
  replayLatest (outputChannelValues j.events)

/-- Read one property of a validation outcome's value: `none` when the value
is not an object or lacks the key, `some none` for a key holding `undefined`,
`some (some v)` for a defined member. -/
def memberOf : Option JsonValue → String → Option (Option JsonValue)
  | some (.obj r), k => objLookup r k
  | _, _ => none

/-! ### Concrete material from the test suites -/

/-- Shorthand: the schema `{ type: t }`. -/
def typeSchema (t : JsonType) : Schema :=
  .node (some [t]) none none none none none none none none

/-- Shorthand: the schema `{ type: t, default: d }`. -/
def typeDefaultSchema (t : JsonType) (d : JsonValue) : Schema :=
  .node (some [t]) (some d) none none none none none none none

/-- Shorthand: the schema `{ properties: ps }`. -/
def propsSchema (ps : List (String × Schema)) : Schema :=
  .node none none (some ps) none none none none none none

/-- Sum of a numeric JSON list on top of a base, `none` when a non-numeric
element appears. -/
def numListSum : Int → List JsonValue → Option Int
  | base, [] => some base
  | base, .num n :: rest => numListSum (base + n) rest
  | _, _ => none

/-- The `add0`/`add100` bodies of the dispatcher suite:
`(input: number[]) => input.reduce((a, c) => a + c, base)`.  Only numeric
arrays are exercised by the suite; anything else would throw in JavaScript
(`reduce` missing, or `+` leaving numbers), modelled as a rejection. -/
def addFn (base : Int) : JsonValue → FnResult := fun v =>
  match v with
  | .arr xs =>
    match numListSum base xs with
    | some s => .value (.num s)
    | none => .rejected "reduce over a non-numeric element"
  | _ => .rejected "input.reduce is not a function"

/-- `add0` of the dispatcher suite: sums a numeric list with base 0, no
declared schemas. -/
def add0Handler : JobHandler := createJobHandler (addFn 0) "add0" none none

/-- `add100` of the dispatcher suite: sums with base 100. -/
def add100Handler : JobHandler := createJobHandler (addFn 100) "add100" none none

/-- The suite's Dispatcher `add`, argument schema `{items: {type: number}}`,
output `{type: number}`, default job `add0` (the suite registers first and
then calls `setDefaultJob`; only the resulting configuration matters). -/
def addDispatcher : JobHandler :=
  setDefaultJob
    (createDispatcher ⟨"add",
      .node none none none (some (typeSchema .tNumber)) none none none none none,
      typeSchema .tNumber⟩)
    "add0"

/-- Register a batch of handlers left to right. -/
def registerAll (reg : Registry) (hs : List JobHandler) : Except JobError Registry :=
  hs.foldlM register reg

/-- The dispatcher suite's registry: `add` (the Dispatcher), `add0`,
`add100`, in that registration order. -/
def dispatcherSuiteRegistry : Registry :=
  (registerAll [] [addDispatcher, add0Handler, add100Handler]).toOption.getD []

/-! ### The per-Job state machine -/

/-- The legal delivered event sequences of one Job:
`Queued → Failure` (the pre-execution short-circuit), or
`Queued → Started → {Output}* → exactly one terminal event`. -/
def TraceShape (t : List JobEvent) : Prop :=
  (∃ e, t = [.queued, .failure e]) ∨
  (∃ (outs : List JsonValue) (term : JobEvent), isTerminalEvent term = true ∧
    t = .queued :: .started :: outs.map JobEvent.output ++ [term])

/-- No event of any kind is delivered after a terminal event. -/
def noAfterTerminal : List JobEvent → Bool
  | [] => true
  | e :: rest => if isTerminalEvent e then rest.isEmpty else noAfterTerminal rest

/-! ### Supporting lemmas -/

lemma visitTransform_any (res : String → Option Schema) (fuel : Nat)
    (v : Option JsonValue) : visitTransform res fuel .any v = v := by
  cases fuel <;> rfl

lemma collectErrors_any (res : String → Option Schema) (fuel : Nat)
    (path : List String) (v : Option JsonValue) :
    collectErrors res fuel .any path v = [] := by
  cases fuel <;> rfl

/-- The unconstrained schema accepts every value, unchanged. -/
lemma validateValue_any (v : JsonValue) : validateValue .any v = .ok v := by
  simp [validateValue, visitTransform_any, collectErrors_any]

lemma isTerminal_finalEvent (os : Schema) (v : JsonValue) :
    isTerminalEvent (finalEvent os v) = true := by
  unfold finalEvent
  cases validateValue os v <;> simp [isTerminalEvent]

/-- A lifted body's contribution is always some outputs followed by exactly
one terminal event. -/
lemma liftedEvents_shape (os : Schema) (r : FnResult) :
    ∃ (outs : List JsonValue) (term : JobEvent), isTerminalEvent term = true ∧
      liftedEvents os r = outs.map JobEvent.output ++ [term] := by
  cases r with
  | value v => exact ⟨[], finalEvent os v, isTerminal_finalEvent os v, rfl⟩
  | rejected m => exact ⟨[], .failure (.handlerExecution m), rfl, rfl⟩
  | sequence vs =>
    cases vs with
    | nil => exact ⟨[], .failure .noOutputProduced, rfl, rfl⟩
    | cons v vs =>
      exact ⟨v :: vs, finalEvent os ((v :: vs).getLastD v),
        isTerminal_finalEvent os _, by simp [liftedEvents]⟩

lemma proxy_outputs (outs : List JsonValue) (term : JobEvent)
    (ht : isTerminalEvent term = true) :
    proxyEvents (outs.map JobEvent.output ++ [term]) = outs.map JobEvent.output ++ [term] := by
  induction outs with
  | nil => simp [proxyEvents, ht]
  | cons v vs ih => simpa [proxyEvents, isOutputEvent] using ih

/-- Proxying a machine-valid nested trace keeps exactly its outputs and its
terminal event. -/
lemma proxy_shape (t : List JobEvent) (h : TraceShape t) :
    ∃ (outs : List JsonValue) (term : JobEvent), isTerminalEvent term = true ∧
      proxyEvents t = outs.map JobEvent.output ++ [term] := by
  rcases h with ⟨e, rfl⟩ | ⟨outs, term, ht, rfl⟩
  · exact ⟨[], .failure e, rfl, by simp [proxyEvents, isOutputEvent, isTerminalEvent]⟩
  · refine ⟨outs, term, ht, ?_⟩
    simpa [proxyEvents, isOutputEvent, isTerminalEvent] using proxy_outputs outs term ht

lemma outOfFuel_shape : TraceShape outOfFuel.1 :=
  .inr ⟨[], .failure (.handlerExecution "dispatch recursion limit reached"), rfl, rfl⟩

/-- One scheduling step preserves the state machine, whatever the nested
scheduling capability produces, as long as that is itself machine-valid. -/
lemma scheduleWith_shape (recur : JobName → JsonValue → List JobEvent × List JobName)
    (hrec : ∀ n a, TraceShape (recur n a).1) (reg : Registry) (name : JobName)
    (arg : JsonValue) : TraceShape (scheduleWith recur reg name arg).1 := by
  cases hg : regGet reg name with
  | none => exact .inl ⟨.jobNameNotFound, by simp [scheduleWith, hg]⟩
  | some h =>
    cases hv : validateValue h.description.argumentSchema arg with
    | error errs => exact .inl ⟨.argumentValidation errs, by simp [scheduleWith, hg, hv]⟩
    | ok arg2 =>
      cases hb : h.body with
      | lifted fn =>
        obtain ⟨outs, term, ht, he⟩ := liftedEvents_shape h.description.outputSchema (fn arg2)
        exact .inr ⟨outs, term, ht, by simp [scheduleWith, hg, hv, hb, he]⟩
      | dispatcher dj =>
        cases hd : dispatchTarget reg h.description.name dj arg2 with
        | none =>
          exact .inr ⟨[], .failure .noJobToHandleDispatch, rfl,
            by simp [scheduleWith, hg, hv, hb, hd]⟩
        | some target =>
          obtain ⟨outs, term, ht, he⟩ := proxy_shape _ (hrec target arg2)
          exact .inr ⟨outs, term, ht, by simp [scheduleWith, hg, hv, hb, hd, he]⟩

/-- Every budgeted schedule produces a machine-valid trace. -/
lemma scheduleAux_shape : ∀ (fuel : Nat) (reg : Registry) (name : JobName)
    (arg : JsonValue), TraceShape (scheduleAux fuel reg name arg).1
  | 0, reg, name, arg =>
    scheduleWith_shape _ (fun _ _ => outOfFuel_shape) reg name arg
  | fuel+1, reg, name, arg =>
    scheduleWith_shape _ (fun n a => scheduleAux_shape fuel reg n a) reg name arg

/-- The two-event short-circuit `Queued → Failure` can only arise from an
unknown name or from argument-validation failure, whatever the nested
scheduling capability is. -/
lemma scheduleWith_shortCircuit (recur : JobName → JsonValue → List JobEvent × List JobName)
    (reg : Registry) (name : JobName) (arg : JsonValue) (e : JobError)
    (h : (scheduleWith recur reg name arg).1 = [.queued, .failure e]) :
    (regGet reg name = none ∧ e = .jobNameNotFound) ∨
    (∃ hh errs, regGet reg name = some hh ∧
      validateValue hh.description.argumentSchema arg = .error errs ∧
      e = .argumentValidation errs) := by
  cases hg : regGet reg name with
  | none =>
    simp only [scheduleWith, hg] at h
    simp at h
    exact .inl ⟨rfl, by simp [h]⟩
  | some hh =>
    cases hv : validateValue hh.description.argumentSchema arg with
    | error errs =>
      simp only [scheduleWith, hg, hv] at h
      simp at h
      exact .inr ⟨hh, errs, rfl, hv, by simp [h]⟩
    | ok arg2 =>
      cases hb : hh.body with
      | lifted fn =>
        simp only [scheduleWith, hg, hv, hb] at h
        simp at h
      | dispatcher dj =>
        cases hd : dispatchTarget reg hh.description.name dj arg2 with
        | none =>
          simp only [scheduleWith, hg, hv, hb, hd] at h
          simp at h
        | some target =>
          simp only [scheduleWith, hg, hv, hb, hd] at h
          simp at h

lemma noAfterTerminal_outputs (outs : List JsonValue) (term : JobEvent)
    (ht : isTerminalEvent term = true) :
    noAfterTerminal (outs.map JobEvent.output ++ [term]) = true := by
  induction outs with
  | nil => simp [noAfterTerminal, ht]
  | cons v vs ih => simpa [noAfterTerminal, isTerminalEvent] using ih

lemma noAfterTerminal_of_shape (t : List JobEvent) (h : TraceShape t) :
    noAfterTerminal t = true := by
  rcases h with ⟨e, rfl⟩ | ⟨outs, term, ht, rfl⟩
  · rfl
  · simpa [noAfterTerminal, isTerminalEvent] using noAfterTerminal_outputs outs term ht

lemma filter_terminal_outputs (outs : List JsonValue) (term : JobEvent)
    (ht : isTerminalEvent term = true) :
    (outs.map JobEvent.output ++ [term]).filter isTerminalEvent = [term] := by
  induction outs with
  | nil => simp [ht]
  | cons v vs ih => simpa [isTerminalEvent] using ih

lemma terminalCount_of_shape (t : List JobEvent) (h : TraceShape t) :
    (t.filter isTerminalEvent).length = 1 := by
  rcases h with ⟨e, rfl⟩ | ⟨outs, term, ht, rfl⟩
  · rfl
  · simp [isTerminalEvent, filter_terminal_outputs outs term ht]

/-! ### Lemmas about the defaults transform on arbitrary property schemas -/

lemma objLookup_mapSet_self (k : String) (v : Option JsonValue) :
    ∀ ms : List (String × Option JsonValue), (ms.find? (fun m => m.1 = k)).isSome →
    objLookup (ms.map (fun m => if m.1 = k then (k, v) else m)) k = some v
  | [], h => by simp at h
  | m :: rest, h => by
    by_cases hm : m.1 = k
    · simp [objLookup, List.map_cons, if_pos hm, List.find?_cons_of_pos]
    · have h2 : (rest.find? (fun m => m.1 = k)).isSome := by
        rwa [List.find?_cons_of_neg _ (by simp [hm])] at h
      simp only [objLookup, List.map_cons, if_neg hm]
      rw [List.find?_cons_of_neg _ (by simp [hm])]
      exact objLookup_mapSet_self k v rest h2

lemma objLookup_mapSet_other (k2 : String) (v : Option JsonValue) (k : String)
    (hkk : k2 ≠ k) :
    ∀ ms : List (String × Option JsonValue),
    objLookup (ms.map (fun m => if m.1 = k2 then (k2, v) else m)) k = objLookup ms k
  | [] => rfl
  | m :: rest => by
    by_cases hm : m.1 = k2
    · have hmk : ¬ m.1 = k := by rw [hm]; exact hkk
      simp only [objLookup, List.map_cons, if_pos hm]
      rw [List.find?_cons_of_neg _ (by simp [hkk]), List.find?_cons_of_neg _ (by simp [hmk])]
      exact objLookup_mapSet_other k2 v k hkk rest
    · by_cases hk : m.1 = k
      · simp only [objLookup, List.map_cons, if_neg hm]
        rw [List.find?_cons_of_pos _ (by simp [hk]), List.find?_cons_of_pos _ (by simp [hk])]
      · simp only [objLookup, List.map_cons, if_neg hm]
        rw [List.find?_cons_of_neg _ (by simp [hk]), List.find?_cons_of_neg _ (by simp [hk])]
        exact objLookup_mapSet_other k2 v k hkk rest

/-- Setting a key makes it read back as that value. -/
lemma objLookup_objSet_self (ms : List (String × Option JsonValue)) (k : String)
    (v : Option JsonValue) : objLookup (objSet ms k v) k = some v := by
  unfold objSet
  by_cases hp : (ms.find? (fun m => m.1 = k)).isSome
  · rw [if_pos hp]
    exact objLookup_mapSet_self k v ms hp
  · rw [if_neg hp]
    have hnone : ms.find? (fun m => m.1 = k) = none := by
      cases hfind : ms.find? (fun m => m.1 = k) with
      | none => rfl
      | some x => rw [hfind] at hp; simp at hp
    simp [objLookup, List.find?_append, hnone]

/-- Setting one key leaves every other key's reading unchanged. -/
lemma objLookup_objSet_other (ms : List (String × Option JsonValue)) (k2 : String)
    (v : Option JsonValue) (k : String) (hkk : k2 ≠ k) :
    objLookup (objSet ms k2 v) k = objLookup ms k := by
  unfold objSet
  by_cases hp : (ms.find? (fun m => m.1 = k2)).isSome
  · rw [if_pos hp]
    exact objLookup_mapSet_other k2 v k hkk ms
  · rw [if_neg hp]
    simp [objLookup, List.find?_append, hkk]

/-- One property-loop step never touches another property's reading. -/
lemma fillPropsStep_lookup_other (recur : Schema → Option JsonValue → Option JsonValue)
    (acc : List (String × Option JsonValue)) (p : String × Schema) (k : String)
    (h : p.1 ≠ k) :
    objLookup (fillPropsStep recur acc p) k = objLookup acc k := by
  simp only [fillPropsStep]
  repeat' split
  all_goals first
    | rfl
    | exact objLookup_objSet_other acc p.1 _ k h

/-- The whole property loop never touches a key outside the declared
properties being processed. -/
lemma fillProps_lookup_preserved (recur : Schema → Option JsonValue → Option JsonValue) :
    ∀ (ps : List (String × Schema)) (acc : List (String × Option JsonValue)) (k : String),
    (∀ p ∈ ps, p.1 ≠ k) → objLookup (fillProps recur ps acc) k = objLookup acc k
  | [], _, _, _ => rfl
  | p :: rest, acc, k, h => by
    rw [fillProps, List.foldl_cons]
    rw [show (rest.foldl (fillPropsStep recur) (fillPropsStep recur acc p))
        = fillProps recur rest (fillPropsStep recur acc p) from rfl]
    rw [fillProps_lookup_preserved recur rest _ k (fun q hq => h q (by simp [hq]))]
    exact fillPropsStep_lookup_other recur acc p k (h p (by simp))

/-- A declared property reading `undefined` (absent or present-`undefined`)
ends the loop holding the sub-schema's `default` (which may itself be
`undefined` — the key is created regardless). -/
lemma fillProps_lookup_of_undef (recur : Schema → Option JsonValue → Option JsonValue) :
    ∀ (ps : List (String × Schema)) (acc : List (String × Option JsonValue))
      (k : String) (sub : Schema),
    (k, sub) ∈ ps → (ps.map Prod.fst).Nodup → ¬ k = "$schema" → sub.isAny = false →
    (objLookup acc k = none ∨ objLookup acc k = some none) →
    objLookup (fillProps recur ps acc) k = some sub.defaultField
  | [], _, _, _, hmem, _, _, _, _ => by simp at hmem
  | p :: rest, acc, k, sub, hmem, hnodup, hns, hany, hund => by
    rw [List.map_cons] at hnodup
    rw [fillProps, List.foldl_cons]
    rw [show (rest.foldl (fillPropsStep recur) (fillPropsStep recur acc p))
        = fillProps recur rest (fillPropsStep recur acc p) from rfl]
    rcases List.mem_cons.mp hmem with heq | htail
    · subst heq
      have hrest : ∀ q ∈ rest, q.1 ≠ k := by
        intro q hq hqk
        have hmm : q.1 ∈ rest.map Prod.fst := List.mem_map_of_mem Prod.fst hq
        exact (List.nodup_cons.mp hnodup).1 (hqk ▸ hmm)
      rw [fillProps_lookup_preserved recur rest _ k hrest]
      have hstep : fillPropsStep recur acc (k, sub) = objSet acc k sub.defaultField := by
        simp only [fillPropsStep]
        rw [if_neg (by simp [hns, hany])]
        rcases hund with hu | hu <;> rw [hu]
      rw [hstep]
      exact objLookup_objSet_self acc k sub.defaultField
    · have hkmem : k ∈ rest.map Prod.fst := List.mem_map_of_mem Prod.fst htail
      have hk : p.1 ≠ k := fun hpk =>
        (List.nodup_cons.mp hnodup).1 (by rwa [hpk])
      have hund2 : objLookup (fillPropsStep recur acc p) k = none ∨
          objLookup (fillPropsStep recur acc p) k = some none := by
        rw [fillPropsStep_lookup_other recur acc p k hk]
        exact hund
      exact fillProps_lookup_of_undef recur rest (fillPropsStep recur acc p) k sub htail
        (List.nodup_cons.mp hnodup).2 hns hany hund2

/-- A defined member of a property whose sub-schema has neither `oneOf` nor
`anyOf` passes through the loop untouched. -/
lemma fillProps_lookup_of_defined (recur : Schema → Option JsonValue → Option JsonValue) :
    ∀ (ps : List (String × Schema)) (acc : List (String × Option JsonValue))
      (k : String) (sub : Schema) (mv : JsonValue),
    (k, sub) ∈ ps → (ps.map Prod.fst).Nodup →
    sub.oneOfField = none → sub.anyOfField = none →
    objLookup acc k = some (some mv) →
    objLookup (fillProps recur ps acc) k = some (some mv)
  | [], _, _, _, _, hmem, _, _, _, _ => by simp at hmem
  | p :: rest, acc, k, sub, mv, hmem, hnodup, hone, hanyof, hdefd => by
    rw [List.map_cons] at hnodup
    rw [fillProps, List.foldl_cons]
    rw [show (rest.foldl (fillPropsStep recur) (fillPropsStep recur acc p))
        = fillProps recur rest (fillPropsStep recur acc p) from rfl]
    rcases List.mem_cons.mp hmem with heq | htail
    · subst heq
      have hrest : ∀ q ∈ rest, q.1 ≠ k := by
        intro q hq hqk
        have hmm : q.1 ∈ rest.map Prod.fst := List.mem_map_of_mem Prod.fst hq
        exact (List.nodup_cons.mp hnodup).1 (hqk ▸ hmm)
      rw [fillProps_lookup_preserved recur rest _ k hrest]
      have hstep : fillPropsStep recur acc (k, sub) = acc := by
        simp only [fillPropsStep]
        split
        · rfl
        · rw [hdefd]
          cases mv with
          | obj vms => simp [hone, hanyof, Option.orElse]
          | _ => rfl
      rw [hstep]
      exact hdefd
    · have hkmem : k ∈ rest.map Prod.fst := List.mem_map_of_mem Prod.fst htail
      have hk : p.1 ≠ k := fun hpk =>
        (List.nodup_cons.mp hnodup).1 (by rwa [hpk])
      have hdefd2 : objLookup (fillPropsStep recur acc p) k = some (some mv) := by
        rw [fillPropsStep_lookup_other recur acc p k hk]
        exact hdefd
      exact fillProps_lookup_of_defined recur rest (fillPropsStep recur acc p) k sub mv htail
        (List.nodup_cons.mp hnodup).2 hone hanyof hdefd2

/-- With duplicate-free keys, `schema.properties[k]` of `{properties: ps}` is
the declared sub-schema of `k`. -/
lemma schemaPropLookup_propsSchema :
    ∀ (ps : List (String × Schema)) (k : String) (sub : Schema),
    (k, sub) ∈ ps → (ps.map Prod.fst).Nodup →
    schemaPropLookup (propsSchema ps) k = some sub
  | [], _, _, hmem, _ => by simp at hmem
  | p :: rest, k, sub, hmem, hnodup => by
    rw [List.map_cons] at hnodup
    rcases List.mem_cons.mp hmem with heq | htail
    · subst heq
      simp [schemaPropLookup, propsSchema, Schema.propertiesField,
        List.find?_cons_of_pos]
    · have hk : p.1 ≠ k := fun hpk =>
        (List.nodup_cons.mp hnodup).1
          (by rw [hpk]; exact List.mem_map_of_mem Prod.fst htail)
      have htl := schemaPropLookup_propsSchema rest k sub htail (List.nodup_cons.mp hnodup).2
      simp only [schemaPropLookup, propsSchema, Schema.propertiesField] at htl ⊢
      rw [List.find?_cons_of_neg _ (by simp [hk])]
      exact htl

/-- Reading one key of the visitor's descent over an object's members: the
member's value is transformed against its declared sub-schema, other members
and undeclared keys pass through. -/
lemma objLookup_descMap (res : String → Option Schema) (fuel : Nat) (s : Schema) :
    ∀ (l : List (String × Option JsonValue)) (k : String),
    objLookup (l.map (fun m => match schemaPropLookup s m.1 with
        | some p => (m.1, visitTransform res fuel p m.2)
        | none => m)) k
      = (objLookup l k).map (fun mv => match schemaPropLookup s k with
          | some p => visitTransform res fuel p mv
          | none => mv)
  | [], k => rfl
  | m :: rest, k => by
    by_cases hk : m.1 = k
    · obtain ⟨k0, mv0⟩ := m
      simp only at hk
      subst hk
      cases hg : schemaPropLookup s k0 <;>
        simp [objLookup, List.find?_cons_of_pos, hg]
    · have hkey : (match schemaPropLookup s m.1 with
          | some p => (m.1, visitTransform res fuel p m.2)
          | none => m).1 = m.1 := by
        cases schemaPropLookup s m.1 <;> rfl
      simp only [objLookup, List.map_cons]
      rw [List.find?_cons_of_neg _ (by simp [hkey, hk]),
        List.find?_cons_of_neg _ (by simp [hk])]
      exact objLookup_descMap res fuel s rest k

/-- `{properties: ps}` constrains no type. -/
lemma getTypes_propsSchema (fuel : Nat) (ps : List (String × Schema)) :
    getTypesOfSchema (fuel+1) (propsSchema ps) = allJsonTypes := rfl

/-- The transform at a `{properties: ps}` node on a defined object runs
exactly the property loop. -/
lemma addUD_propsSchema (fuel : Nat) (ps : List (String × Schema))
    (ms : List (String × Option JsonValue)) :
    addUndefinedDefaults (fuel+1) (propsSchema ps) (some (.obj ms))
      = some (.obj (fillProps (fun s v => addUndefinedDefaults fuel s v) ps ms)) := rfl

/-- The visitor at a `{properties: ps}` node on a defined object: run the
property loop, then descend into every member through its declared
sub-schema. -/
lemma visitTransform_propsSchema (res : String → Option Schema) (fuel : Nat)
    (ps : List (String × Schema)) (ms : List (String × Option JsonValue)) :
    visitTransform res (fuel+1) (propsSchema ps) (some (.obj ms))
      = some (.obj ((fillProps (fun s v => addUndefinedDefaults fuel s v) ps ms).map
          (fun m => match schemaPropLookup (propsSchema ps) m.1 with
            | some p => (m.1, visitTransform res fuel p m.2)
            | none => m))) := rfl

/-- A `{type: t, ...}` node with no combinators has exactly the potential
type `t`. -/
lemma getTypes_typeNode (fuel : Nat) (t : JsonType) (d : Option JsonValue)
    (props : Option (List (String × Schema))) (items : Option Schema) :
    getTypesOfSchema (fuel+1) (.node (some [t]) d props items none none none none none)
      = [t] := by
  cases t <;> rfl

/-- The transform leaves a type-correct value of a `{type: t, default: d}`
leaf alone. -/
lemma addUD_typeDefault (fuel : Nat) (t : JsonType) (d : JsonValue)
    (h : typeOfJson d = t) :
    addUndefinedDefaults (fuel+1) (typeDefaultSchema t d) (some d) = some d := by
  cases d <;> cases t <;>
    simp_all [addUndefinedDefaults, typeDefaultSchema, Schema.defaultField,
      Schema.propertiesField, Schema.itemsField, isNullish, typeOfJson,
      getTypes_typeNode, fillProps]

/-- The visitor leaves a type-correct value of a `{type: t, default: d}` leaf
alone: the injected default of such a property survives the descent. -/
lemma visitTransform_typeDefault (res : String → Option Schema) (fuel : Nat)
    (t : JsonType) (d : JsonValue) (h : typeOfJson d = t) :
    visitTransform res (fuel+1) (typeDefaultSchema t d) (some d) = some d := by
  have haud := addUD_typeDefault fuel t d h
  cases d <;>
    simp_all [visitTransform, resolveSchema, typeDefaultSchema, Schema.refField,
      Schema.itemsField, schemaPropLookup, Schema.propertiesField, List.map_id']

/-- A node admitting no potential type (and with no `default` and no `$ref`)
injects nothing: `undefined` stays `undefined`. -/
lemma visitTransform_none_of_noTypes (res : String → Option Schema) (fuel : Nat)
    (sub : Schema) (hany : sub.isAny = false) (hdef : sub.defaultField = none)
    (href : sub.refField = none)
    (htypes : getTypesOfSchema (fuel+1) sub = []) :
    visitTransform res (fuel+1) sub none = none := by
  cases sub with
  | any => simp [Schema.isAny] at hany
  | node a b c d e f g hh i =>
    simp only [Schema.refField] at href
    simp only [Schema.defaultField] at hdef
    subst href
    subst hdef
    simp [visitTransform, resolveSchema, Schema.refField, addUndefinedDefaults,
      Schema.defaultField, isNullish, htypes]

/-- A node whose only potential type is `object` (with no `default`, no
`$ref` and no declared properties) turns `undefined` into an injected empty
object. -/
lemma visitTransform_emptyObject_of_objectType (res : String → Option Schema) (fuel : Nat)
    (sub : Schema) (hany : sub.isAny = false) (hdef : sub.defaultField = none)
    (href : sub.refField = none) (hprops : sub.propertiesField = none)
    (htypes : getTypesOfSchema (fuel+1) sub = [.tObject]) :
    visitTransform res (fuel+1) sub none = some (.obj []) := by
  cases sub with
  | any => simp [Schema.isAny] at hany
  | node a b c d e f g hh i =>
    simp only [Schema.refField] at href
    simp only [Schema.defaultField] at hdef
    simp only [Schema.propertiesField] at hprops
    subst href
    subst hdef
    subst hprops
    simp [visitTransform, resolveSchema, Schema.refField, addUndefinedDefaults,
      Schema.defaultField, Schema.propertiesField, isNullish, htypes, fillProps]

/-- The engine's schema-applied outcome for `{properties: ps}` on a defined
object (the engine budget 512 unfolds into one root step plus descents at
budget 511). -/
lemma registryValidate_propsSchema_snd (res : String → Option Schema)
    (ps : List (String × Schema)) (ms : List (String × Option JsonValue)) :
    (registryValidate res (propsSchema ps) (some (.obj ms))).2
      = some (.obj ((fillProps (fun s v => addUndefinedDefaults 511 s v) ps ms).map
          (fun m => match schemaPropLookup (propsSchema ps) m.1 with
            | some p => (m.1, visitTransform res 511 p m.2)
            | none => m))) :=
  visitTransform_propsSchema res 511 ps ms

/-- An `undefined` declared property of the validated outcome holds its
sub-schema's `default`, schema-applied by the descent. -/
lemma memberOf_registryValidate_undef (res : String → Option Schema)
    (ps : List (String × Schema)) (ms : List (String × Option JsonValue))
    (k : String) (sub : Schema)
    (hnodup : (ps.map Prod.fst).Nodup) (hmem : (k, sub) ∈ ps)
    (hns : ¬ k = "$schema") (hany : sub.isAny = false)
    (hund : objLookup ms k = none ∨ objLookup ms k = some none) :
    memberOf (registryValidate res (propsSchema ps) (some (.obj ms))).2 k
      = some (visitTransform res 511 sub sub.defaultField) := by
  rw [registryValidate_propsSchema_snd]
  simp only [memberOf]
  rw [objLookup_descMap]
  rw [fillProps_lookup_of_undef _ ps ms k sub hmem hnodup hns hany hund]
  rw [schemaPropLookup_propsSchema ps k sub hmem hnodup]
  rfl

/-- A defined declared property of the validated outcome (its sub-schema free
of `oneOf`/`anyOf`) is the original member, schema-applied by the descent. -/
lemma memberOf_registryValidate_defined (res : String → Option Schema)
    (ps : List (String × Schema)) (ms : List (String × Option JsonValue))
    (k : String) (sub : Schema) (mv : JsonValue)
    (hnodup : (ps.map Prod.fst).Nodup) (hmem : (k, sub) ∈ ps)
    (hone : sub.oneOfField = none) (hanyof : sub.anyOfField = none)
    (hdefd : objLookup ms k = some (some mv)) :
    memberOf (registryValidate res (propsSchema ps) (some (.obj ms))).2 k
      = some (visitTransform res 511 sub (some mv)) := by
  rw [registryValidate_propsSchema_snd]
  simp only [memberOf]
  rw [objLookup_descMap]
  rw [fillProps_lookup_of_defined _ ps ms k sub mv hmem hnodup hone hanyof hdefd]
  rw [schemaPropLookup_propsSchema ps k sub hmem hnodup]
  rfl

/-- Validating `{properties: ps}` against a defined object checks exactly the
present, defined declared members. -/
lemma collectErrors_propsSchema (res : String → Option Schema) (fuel : Nat)
    (ps : List (String × Schema)) (r : List (String × Option JsonValue)) :
    collectErrors res (fuel+1) (propsSchema ps) [] (some (.obj r))
      = ps.foldl (fun acc p =>
          match objLookup r p.1 with
          | some (some mv) => acc ++ collectErrors res fuel p.2 [p.1] (some mv)
          | _ => acc) [] := by
  simp [collectErrors, propsSchema, resolveSchema, Schema.refField, Schema.typeField,
    Schema.propertiesField, Schema.itemsField, Schema.allOfField, Schema.oneOfField,
    Schema.anyOfField, Schema.notField]

lemma propsSchema_success_fold (res : String → Option Schema) (fuel : Nat)
    (r : List (String × Option JsonValue)) :
    ∀ (ps : List (String × Schema)),
    (∀ p ∈ ps, ∀ mv, objLookup r p.1 = some (some mv) →
      collectErrors res fuel p.2 [p.1] (some mv) = []) →
    ∀ acc, ps.foldl (fun acc p =>
        match objLookup r p.1 with
        | some (some mv) => acc ++ collectErrors res fuel p.2 [p.1] (some mv)
        | _ => acc) acc = acc
  | [], _, _ => rfl
  | p :: rest, h, acc => by
    rw [List.foldl_cons]
    have hstep : (match objLookup r p.1 with
        | some (some mv) => acc ++ collectErrors res fuel p.2 [p.1] (some mv)
        | _ => acc) = acc := by
      cases hm : objLookup r p.1 with
      | none => rfl
      | some mvo =>
        cases mvo with
        | none => rfl
        | some mv => simp [h p (by simp) mv hm]
    rw [hstep]
    exact propsSchema_success_fold res fuel r rest
      (fun q hq => h q (by simp [hq])) acc

/-- The whole validation outcome is a success as soon as every present,
defined declared member of the schema-applied value validates against its
sub-schema. -/
lemma registryValidate_propsSchema_success (res : String → Option Schema)
    (ps : List (String × Schema)) (ms : List (String × Option JsonValue))
    (h : ∀ p ∈ ps, ∀ mv,
        memberOf (registryValidate res (propsSchema ps) (some (.obj ms))).2 p.1
          = some (some mv) →
        collectErrors res 511 p.2 [p.1] (some mv) = []) :
    (registryValidate res (propsSchema ps) (some (.obj ms))).1 = true := by
  obtain ⟨r, hr⟩ : ∃ r,
      (registryValidate res (propsSchema ps) (some (.obj ms))).2 = some (.obj r) :=
    ⟨_, registryValidate_propsSchema_snd res ps ms⟩
  have h2 : ∀ p ∈ ps, ∀ mv, objLookup r p.1 = some (some mv) →
      collectErrors res 511 p.2 [p.1] (some mv) = [] := by
    intro p hp mv hm
    refine h p hp mv ?_
    rw [hr]
    exact hm
  have h1 : (registryValidate res (propsSchema ps) (some (.obj ms))).1
      = (collectErrors res engineFuel (propsSchema ps) []
          ((registryValidate res (propsSchema ps) (some (.obj ms))).2)).isEmpty := rfl
  rw [h1, hr]
  have hef : engineFuel = 511 + 1 := rfl
  rw [hef, collectErrors_propsSchema res 511 ps r,
    propsSchema_success_fold res 511 r ps h2 []]
  rfl


/-! ### The claims -/

/-- Claim C1: with the dispatcher suite's registry — handler `add0` (sums
with base 0), `add100` (base 100), and Dispatcher `add` with argument schema
`{items: number}` and default job `add0` — `schedule('add', [1,2,3,4])`
produces a Job whose output stream terminates with the value `10` and whose
terminal state is `Success`. -/
theorem c1_dispatcher_suite_end_to_end :
    (schedule dispatcherSuiteRegistry "add" (.arr [.num 1, .num 2, .num 3, .num 4])).events
        = [.queued, .started, .success (.num 10)] ∧
    outputChannelValues (schedule dispatcherSuiteRegistry "add"
        (.arr [.num 1, .num 2, .num 3, .num 4])).events = [.num 10] ∧
    (schedule dispatcherSuiteRegistry "add" (.arr [.num 1, .num 2, .num 3, .num 4])).lateOutput
        = some (.num 10) :=
  ⟨rfl, rfl, rfl⟩

/-- Claim C2: whenever the argument fails validation against the registered
handler's argument schema, the Job goes directly `Queued → Failure` carrying
an `ArgumentValidationError` that aggregates the engine's whole error list,
and no handler body runs at all (the invoked-handlers record stays empty, so
any side effect of the body is absent). -/
theorem c2_argument_validation_failure_short_circuits
    (reg : Registry) (name : JobName) (h : JobHandler) (arg : JsonValue)
    (errs : List VError)
    (hreg : regGet reg name = some h)
    (hval : validateValue h.description.argumentSchema arg = .error errs) :
    (schedule reg name arg).events = [.queued, .failure (.argumentValidation errs)] ∧
    (schedule reg name arg).invoked = [] := by
  constructor <;> simp [schedule, scheduleAux, scheduleWith, hreg, hval]

/-- A handler demanding a boolean argument, with an invocation counter
observable through `invoked`. -/
def wantsBoolHandler : JobHandler :=
  createJobHandler (fun _ => .value .null) "wantsBool" (some (typeSchema .tBoolean)) none

theorem c2_witness :
    validateValue (typeSchema .tBoolean) (.num 5) = .error [⟨[], "type mismatch"⟩] ∧
    (schedule [wantsBoolHandler] "wantsBool" (.num 5)).events
        = [.queued, .failure (.argumentValidation [⟨[], "type mismatch"⟩])] ∧
    (schedule [wantsBoolHandler] "wantsBool" (.num 5)).invoked = [] := by
  refine ⟨rfl, ?_, ?_⟩
  · exact (c2_argument_validation_failure_short_circuits [wantsBoolHandler] "wantsBool"
      wantsBoolHandler (.num 5) [⟨[], "type mismatch"⟩] rfl rfl).1
  · exact (c2_argument_validation_failure_short_circuits [wantsBoolHandler] "wantsBool"
      wantsBoolHandler (.num 5) [⟨[], "type mismatch"⟩] rfl rfl).2

/-- Claim C3: scheduling a name absent from the registry returns a Job handle
(the model's `schedule` is a total function — nothing is thrown) that is
immediately in terminal `Failure` with `JobNameNotFoundError`; no `Started`
event is ever observed and no registered handler body runs. -/
theorem c3_unknown_name_fails_without_start
    (reg : Registry) (name : JobName) (arg : JsonValue)
    (habs : regGet reg name = none) :
    (schedule reg name arg).events = [.queued, .failure .jobNameNotFound] ∧
    (schedule reg name arg).invoked = [] ∧
    JobEvent.started ∉ (schedule reg name arg).events := by
  refine ⟨?_, ?_, ?_⟩ <;> simp [schedule, scheduleAux, scheduleWith, habs]

theorem c3_witness :
    (schedule [add0Handler] "missing" .null).events = [.queued, .failure .jobNameNotFound] ∧
    (schedule [add0Handler] "missing" .null).invoked = [] ∧
    JobEvent.started ∉ (schedule [add0Handler] "missing" .null).events :=
  c3_unknown_name_fails_without_start [add0Handler] "missing" .null rfl

/-- Claim C7: registering a handler whose name is already present fails with
`DuplicateJobNameError` — no overwriting takes place, the caller's registry
value is untouched by construction — and registering a fresh name appends the
handler, `list()` enumerating names in insertion order. -/
theorem c7_register_duplicate_or_append (reg : Registry) (h : JobHandler) :
    ((regList reg).contains h.description.name = true →
      register reg h = .error .duplicateJobName) ∧
    ((regList reg).contains h.description.name = false →
      register reg h = .ok (reg ++ [h]) ∧
      regList (reg ++ [h]) = regList reg ++ [h.description.name]) := by
  constructor
  · intro hc
    unfold register
    rw [hc]
    simp
  · intro hc
    refine ⟨?_, by simp [regList]⟩
    unfold register
    rw [hc]
    simp

theorem c7_witness :
    register [add0Handler] add0Handler = .error .duplicateJobName ∧
    register [] add0Handler = .ok [add0Handler] ∧
    regList [add0Handler] = ["add0"] := by
  refine ⟨(c7_register_duplicate_or_append [add0Handler] add0Handler).1 rfl, ?_, ?_⟩
  · simpa using ((c7_register_duplicate_or_append [] add0Handler).2 rfl).1
  · simpa using ((c7_register_duplicate_or_append [] add0Handler).2 rfl).2

/-- Claim C8: a plain function lifted by `createJobHandler` with both schema
options omitted carries the unconstrained schema in both places, every
argument passes argument validation, and scheduling it reaches `Started` and
terminates in `Success` with the function's value. -/
theorem c8_lifted_handler_defaults_accept_anything
    (fn : JsonValue → FnResult) (name : JobName) (reg : Registry)
    (arg v : JsonValue)
    (hreg : regGet reg name = some (createJobHandler fn name none none))
    (hfn : fn arg = .value v) :
    (createJobHandler fn name none none).description.argumentSchema = .any ∧
    (createJobHandler fn name none none).description.outputSchema = .any ∧
    validateValue .any arg = .ok arg ∧
    (schedule reg name arg).events = [.queued, .started, .success v] ∧
    (schedule reg name arg).invoked = [name] := by
  refine ⟨rfl, rfl, validateValue_any arg, ?_, ?_⟩ <;>
    simp [schedule, scheduleAux, scheduleWith, hreg, createJobHandler, validateValue_any,
      liftedEvents, hfn, finalEvent]

/-- A lifted identity function with no declared schemas. -/
def echoHandler : JobHandler := createJobHandler (fun v => .value v) "echo" none none

theorem c8_witness :
    validateValue .any (.num 7) = .ok (.num 7) ∧
    (schedule [echoHandler] "echo" (.num 7)).events
        = [.queued, .started, .success (.num 7)] ∧
    (schedule [echoHandler] "echo" (.num 7)).invoked = ["echo"] := by
  obtain ⟨-, -, h3, h4, h5⟩ := c8_lifted_handler_defaults_accept_anything
    (fun v => .value v) "echo" [echoHandler] (.num 7) (.num 7) rfl rfl
  exact ⟨h3, h4, h5⟩

/-- Claim C4: every Job's delivered event sequence follows the machine
`Queued → Started → {Output}* → (Success | Failure | Aborted)` with
`Queued → Failure` as the only short-circuit; exactly one terminal event
occurs (so the three terminal states are mutually exclusive and a terminal
occurs at most once), nothing is delivered after it, and the short-circuit
only ever arises from an unknown name or from argument-validation failure. -/
theorem c4_job_state_machine (reg : Registry) (name : JobName) (arg : JsonValue) :
    TraceShape (schedule reg name arg).events ∧
    noAfterTerminal (schedule reg name arg).events = true ∧
    ((schedule reg name arg).events.filter isTerminalEvent).length = 1 ∧
    (∀ e, (schedule reg name arg).events = [.queued, .failure e] →
      (regGet reg name = none ∧ e = .jobNameNotFound) ∨
      (∃ h errs, regGet reg name = some h ∧
        validateValue h.description.argumentSchema arg = .error errs ∧
        e = .argumentValidation errs)) := by
  have hshape : TraceShape (schedule reg name arg).events :=
    scheduleAux_shape (reg.length + 1) reg name arg
  refine ⟨hshape, noAfterTerminal_of_shape _ hshape, terminalCount_of_shape _ hshape, ?_⟩
  intro e he
  exact scheduleWith_shortCircuit (fun n a => scheduleAux reg.length reg n a) reg name arg e he

theorem c4_witness :
    noAfterTerminal (schedule [] "nope" .null).events = true ∧
    ((schedule [] "nope" .null).events.filter isTerminalEvent).length = 1 ∧
    ((regGet ([] : Registry) "nope" = none ∧
        JobError.jobNameNotFound = JobError.jobNameNotFound) ∨
      (∃ h errs, regGet ([] : Registry) "nope" = some h ∧
        validateValue h.description.argumentSchema .null = .error errs ∧
        JobError.jobNameNotFound = .argumentValidation errs)) := by
  obtain ⟨-, h2, h3, h4⟩ := c4_job_state_machine [] "nope" .null
  exact ⟨h2, h3, h4 .jobNameNotFound rfl⟩

lemma getLast?_cons_of_getLast? {α : Type} (x : α) (l : List α) (v : α)
    (h : l.getLast? = some v) : (x :: l).getLast? = some v := by
  cases l with
  | nil => simp at h
  | cons y ys => rw [List.getLast?_cons_cons]; exact h

lemma getLast?_filterMap_cons {α β : Type} (f : α → Option β) (x : α) (l : List α)
    (v : β) (h : (l.filterMap f).getLast? = some v) :
    ((x :: l).filterMap f).getLast? = some v := by
  rw [List.filterMap_cons]
  cases f x with
  | none => exact h
  | some y => exact getLast?_cons_of_getLast? y _ v h

/-- If a trace ends in `Success v`, the output channel's latest value is `v`. -/
lemma lastOutput_of_success : ∀ (t : List JobEvent) (v : JsonValue),
    t.getLast? = some (.success v) → (outputChannelValues t).getLast? = some v
  | [], v, h => by simp at h
  | [e], v, h => by
    simp at h
    subst h
    rfl
  | e :: e2 :: rest, v, h => by
    have h2 : (e2 :: rest).getLast? = some (.success v) := by
      rwa [List.getLast?_cons_cons] at h
    exact getLast?_filterMap_cons _ e (e2 :: rest) v (lastOutput_of_success (e2 :: rest) v h2)

/-- Claim C6: the output channel has replace semantics — after any emission
history, one more `Output` leaves the channel holding exactly that last value
— and a subscriber attaching to a Job that already ended in `Success`
immediately receives only the final value (`lateOutput` is a pure projection
of the recorded Job: reading it runs no handler body again). -/
theorem c6_output_channel_replay_latest (reg : Registry) (name : JobName)
    (arg : JsonValue) (evts : List JobEvent) (w v : JsonValue) :
    replayLatest (outputChannelValues (evts ++ [.output w])) = some w ∧
    ((schedule reg name arg).events.getLast? = some (.success v) →
      (schedule reg name arg).lateOutput = some v) := by
  constructor
  · simp [replayLatest, outputChannelValues, List.filterMap_append]
  · intro h
    exact lastOutput_of_success _ v h

theorem c6_witness :
    replayLatest (outputChannelValues
        ([JobEvent.output (.num 1)] ++ [JobEvent.output (.num 2)])) = some (.num 2) ∧
    (schedule dispatcherSuiteRegistry "add"
        (.arr [.num 1, .num 2, .num 3, .num 4])).lateOutput = some (.num 10) := by
  obtain ⟨h1, h2⟩ := c6_output_channel_replay_latest dispatcherSuiteRegistry "add"
    (.arr [.num 1, .num 2, .num 3, .num 4]) [JobEvent.output (.num 1)] (.num 2) (.num 10)
  exact ⟨h1, h2 rfl⟩

lemma find?_first {α : Type} (p : α → Bool) : ∀ (pre : List α) (c : α) (post : List α),
    (∀ x ∈ pre, p x = false) → p c = true → (pre ++ c :: post).find? p = some c
  | [], c, post, _, hc => by simp [List.find?_cons_of_pos, hc]
  | x :: pre, c, post, hpre, hc => by
    have hx : p x = false := hpre x (by simp)
    rw [List.cons_append, List.find?_cons_of_neg _ (by simp [hx])]
    exact find?_first p pre c post (fun y hy => hpre y (by simp [hy])) hc

/-- Claim C5: a scheduled Dispatcher enumerates the registry's jobs except its
own name in insertion order, validates the argument against each candidate's
argument schema, and delegates to exactly the first candidate that validates —
first-match — proxying that nested Job; the conclusion does not depend on the
configured default, so a matching candidate preceding the default wins over
it. -/
theorem c5_dispatcher_first_match
    (reg : Registry) (dname : JobName) (argS outS : Schema)
    (defaultJob : Option JobName) (arg arg2 : JsonValue)
    (pre post : List JobHandler) (cand : JobHandler)
    (hreg : regGet reg dname = some ⟨⟨dname, argS, outS⟩, .dispatcher defaultJob⟩)
    (hval : validateValue argS arg = .ok arg2)
    (hcands : reg.filter (fun h => h.description.name ≠ dname) = pre ++ cand :: post)
    (hpre : ∀ p ∈ pre, acceptsArgument p arg2 = false)
    (hcand : acceptsArgument cand arg2 = true) :
    dispatchTarget reg dname defaultJob arg2 = some cand.description.name ∧
    (schedule reg dname arg).events
        = .queued :: .started ::
            proxyEvents (scheduleAux reg.length reg cand.description.name arg2).1 ∧
    (schedule reg dname arg).invoked
        = dname :: (scheduleAux reg.length reg cand.description.name arg2).2 := by
  have htarget : dispatchTarget reg dname defaultJob arg2 = some cand.description.name := by
    unfold dispatchTarget
    rw [hcands, find?_first _ pre cand post hpre hcand]
  refine ⟨htarget, ?_, ?_⟩ <;>
    simp [schedule, scheduleAux, scheduleWith, hreg, hval, htarget]

/-- A candidate whose argument schema (`{type: number}`) matches and which
precedes the default in registry order. -/
def firstMatchHandler : JobHandler :=
  createJobHandler (fun _ => .value (.num 111)) "first" (some (typeSchema .tNumber)) none

/-- The configured default delegate, accepting anything. -/
def fallbackHandler : JobHandler :=
  createJobHandler (fun _ => .value (.num 222)) "fallback" none none

/-- A dispatcher with default `fallback`, in a registry where `first` (which
also matches a numeric argument) precedes `fallback`. -/
def pickDispatcher : JobHandler :=
  setDefaultJob (createDispatcher ⟨"pick", .any, .any⟩) "fallback"

def pickRegistry : Registry :=
  (registerAll [] [pickDispatcher, firstMatchHandler, fallbackHandler]).toOption.getD []

theorem c5_witness :
    (schedule pickRegistry "pick" (.num 5)).events
        = [.queued, .started, .success (.num 111)] ∧
    (schedule pickRegistry "pick" (.num 5)).invoked = ["pick", "first"] := by
  obtain ⟨-, h2, h3⟩ := c5_dispatcher_first_match pickRegistry "pick" .any .any
    (some "fallback") (.num 5) (.num 5) [] [fallbackHandler] firstMatchHandler rfl
    (validateValue_any _) rfl (by intro p hp; simp at hp) rfl
  constructor
  · rw [h2]; rfl
  · rw [h3]; rfl

/-! ### The `addUndefinedDefaults` suite's schemas -/

/-- The suite's first schema: properties `bool`, `str` (default), a nested
object `obj` with a defaulted sub-property, and the five combinator probes
`objAllOk` (`allOf` with one object branch), `objAllBad` (`allOf` mixing
object and number), `objOne` (`oneOf` with an object branch), `objNotOk`
(double-negated object), `objNotBad` (object type with `not: {type: object}`). -/
def transformsSchema1 : Schema := propsSchema [
  ("bool", typeSchema .tBoolean),
  ("str", typeDefaultSchema .tString (.str "someString")),
  ("obj", propsSchema [("num", typeSchema .tNumber),
                       ("other", typeDefaultSchema .tNumber (.num 0))]),
  ("objAllOk", .node none none none none (some [typeSchema .tObject]) none none none none),
  ("objAllBad", .node none none none none
      (some [typeSchema .tObject, typeSchema .tNumber]) none none none none),
  ("objOne", .node none none none none none (some [typeSchema .tObject]) none none none),
  ("objNotOk", .node none none none none none none none
      (some (.node none none none none none none none (some (typeSchema .tObject)) none)) none),
  ("objNotBad", .node (some [.tObject]) none none none none none none
      (some (typeSchema .tObject)) none)]

/-- The suite's second schema: every leaf property carries a default. -/
def transformsSchema2 : Schema := propsSchema [
  ("bool", typeDefaultSchema .tBoolean (.bool true)),
  ("str", typeDefaultSchema .tString (.str "someString")),
  ("obj", propsSchema [("num", typeDefaultSchema .tNumber (.num 0))])]

/-- The suite's second input: every property present but `undefined` (the
nested `num` too). -/
def transformsData2 : JsonValue :=
  .obj [("bool", none), ("str", none), ("obj", some (.obj [("num", none)]))]

/-- The `$refs` suite schema: `bool` with a default, `boolRef` referring to a
definition carrying its own default. -/
def refsSchema : Schema := propsSchema [
  ("bool", typeDefaultSchema .tBoolean (.bool false)),
  ("boolRef", .node none none none none none none none none
      (some "#/definitions/boolRef"))]

/-- The `definitions` table of `refsSchema` as a resolver. -/
def boolRefResolver : String → Option Schema := fun r =>
  if r = "#/definitions/boolRef"
  then some (typeDefaultSchema .tBoolean (.bool false)) else none

/-- The suite's pinned behaviors, reproduced by the model: the all-undefined
input and the two `$refs` inputs (a defined value never being overwritten). -/
example :
    registryValidate noRefs transformsSchema2 (some transformsData2)
        = (true, some (.obj [
            ("bool", some (.bool true)),
            ("str", some (.str "someString")),
            ("obj", some (.obj [("num", some (.num 0))]))])) ∧
    registryValidate boolRefResolver refsSchema (some (.obj []))
        = (true, some (.obj [
            ("bool", some (.bool false)),
            ("boolRef", some (.bool false))])) ∧
    registryValidate boolRefResolver refsSchema (some (.obj [("boolRef", some (.bool true))]))
        = (true, some (.obj [
            ("boolRef", some (.bool true)),
            ("bool", some (.bool false))])) :=
  ⟨rfl, rfl, rfl⟩

/-- The suite's pinned combinator behaviors, reproduced by the model from
the empty object. -/
example :
    registryValidate noRefs transformsSchema1 (some (.obj []))
        = (true, some (.obj [
            ("bool", none),
            ("str", some (.str "someString")),
            ("obj", some (.obj [("num", none), ("other", some (.num 0))])),
            ("objAllOk", some (.obj [])),
            ("objAllBad", none),
            ("objOne", some (.obj [])),
            ("objNotOk", some (.obj [])),
            ("objNotBad", none)])) :=
  rfl

/-- Claim C9: for **every** object schema `{properties: ps}` declaring
defaults (duplicate-free keys, as JavaScript object literals guarantee) and
**every** input object, running the engine's validate with the
`addUndefinedDefaults` transform injects the declared defaults in place of
the `undefined` (absent or present-`undefined`) properties:
(1) an `undefined` declared property of the outcome's value holds its
sub-schema's `default`, itself schema-applied by the descent — which also
covers defaults reached through `$ref`, injected by the resolver-aware
descent;
(2) in particular a `{type: t, default: d}` leaf with a type-correct default
ends up holding exactly `d`;
(3) a defined property is never overwritten by a default — it only undergoes
the ordinary descent (stated for sub-schemas free of the `oneOf`/`anyOf`
re-processing);
(4) the outcome is a success whenever every present, defined declared member
of the schema-applied value validates against its sub-schema (an input that
is invalid for unrelated reasons cannot succeed, so success is necessarily
conditional in the universal statement).
The budget `511` is the engine budget `engineFuel = 512` after the root
step.  In-place mutation of the caller's object is represented by the
outcome's value: a pure embedding cannot express JavaScript aliasing, and
the suite observes the mutated object only through these same property
values. -/
theorem c9_defaults_injected_for_undefined_properties
    (res : String → Option Schema) (ps : List (String × Schema))
    (ms : List (String × Option JsonValue))
    (hnodup : (ps.map Prod.fst).Nodup) :
    (∀ k sub, (k, sub) ∈ ps → sub.isAny = false → ¬ k = "$schema" →
      (objLookup ms k = none ∨ objLookup ms k = some none) →
      memberOf (registryValidate res (propsSchema ps) (some (.obj ms))).2 k
        = some (visitTransform res 511 sub sub.defaultField)) ∧
    (∀ k t d, (k, typeDefaultSchema t d) ∈ ps → typeOfJson d = t → ¬ k = "$schema" →
      (objLookup ms k = none ∨ objLookup ms k = some none) →
      memberOf (registryValidate res (propsSchema ps) (some (.obj ms))).2 k
        = some (some d)) ∧
    (∀ k sub mv, (k, sub) ∈ ps →
      sub.oneOfField = none → sub.anyOfField = none →
      objLookup ms k = some (some mv) →
      memberOf (registryValidate res (propsSchema ps) (some (.obj ms))).2 k
        = some (visitTransform res 511 sub (some mv))) ∧
    ((∀ p ∈ ps, ∀ mv,
        memberOf (registryValidate res (propsSchema ps) (some (.obj ms))).2 p.1
          = some (some mv) →
        collectErrors res 511 p.2 [p.1] (some mv) = []) →
      (registryValidate res (propsSchema ps) (some (.obj ms))).1 = true) := by
  refine ⟨?_, ?_, ?_, ?_⟩
  · intro k sub hmem hany hns hund
    exact memberOf_registryValidate_undef res ps ms k sub hnodup hmem hns hany hund
  · intro k t d hmem htype hns hund
    rw [memberOf_registryValidate_undef res ps ms k (typeDefaultSchema t d) hnodup hmem
      hns rfl hund]
    exact congrArg some (visitTransform_typeDefault res 510 t d htype)
  · intro k sub mv hmem hone hanyof hdefd
    exact memberOf_registryValidate_defined res ps ms k sub mv hnodup hmem hone hanyof hdefd
  · exact registryValidate_propsSchema_success res ps ms

theorem c9_witness :
    memberOf (registryValidate noRefs transformsSchema2 (some transformsData2)).2 "bool"
        = some (some (.bool true)) ∧
    memberOf (registryValidate noRefs transformsSchema2 (some transformsData2)).2 "str"
        = some (some (.str "someString")) ∧
    memberOf (registryValidate noRefs transformsSchema2 (some transformsData2)).2 "obj"
        = some (some (.obj [("num", some (.num 0))])) ∧
    memberOf (registryValidate boolRefResolver refsSchema (some (.obj []))).2 "boolRef"
        = some (some (.bool false)) ∧
    (registryValidate noRefs transformsSchema2 (some transformsData2)).1 = true := by
  unfold transformsSchema2 transformsData2 refsSchema
  obtain ⟨h1, h2, h3, h4⟩ := c9_defaults_injected_for_undefined_properties noRefs
    [("bool", typeDefaultSchema .tBoolean (.bool true)),
     ("str", typeDefaultSchema .tString (.str "someString")),
     ("obj", propsSchema [("num", typeDefaultSchema .tNumber (.num 0))])]
    [("bool", none), ("str", none), ("obj", some (.obj [("num", none)]))]
    (by decide)
  obtain ⟨g1, g2, g3, g4⟩ := c9_defaults_injected_for_undefined_properties boolRefResolver
    [("bool", typeDefaultSchema .tBoolean (.bool false)),
     ("boolRef", .node none none none none none none none none
        (some "#/definitions/boolRef"))]
    [] (by decide)
  refine ⟨?_, ?_, ?_, ?_, ?_⟩
  · exact h2 "bool" .tBoolean (.bool true) (.head _) rfl (by decide) (.inr rfl)
  · exact h2 "str" .tString (.str "someString") (.tail _ (.head _)) rfl (by decide)
      (.inr rfl)
  · rw [h3 "obj" (propsSchema [("num", typeDefaultSchema .tNumber (.num 0))])
        (.obj [("num", none)]) (.tail _ (.tail _ (.head _))) rfl rfl rfl]
    rfl
  · rw [g1 "boolRef"
        (.node none none none none none none none none (some "#/definitions/boolRef"))
        (.tail _ (.head _)) rfl (by decide) (.inl rfl)]
    rfl
  · apply h4
    intro p hp mv hmv
    simp only [List.mem_cons, List.not_mem_nil, or_false] at hp
    rcases hp with rfl | rfl | rfl
    · have hv : some (some (JsonValue.bool true)) = some (some mv) := by
        rw [← hmv]; exact rfl
      injection hv with hv1
      injection hv1 with hv2
      subst hv2
      rfl
    · have hv : some (some (JsonValue.str "someString")) = some (some mv) := by
        rw [← hmv]; exact rfl
      injection hv with hv1
      injection hv1 with hv2
      subst hv2
      rfl
    · have hv : some (some (JsonValue.obj [("num", some (.num 0))])) = some (some mv) := by
        rw [← hmv]; exact rfl
      injection hv with hv1
      injection hv1 with hv2
      subst hv2
      rfl

/-- Claim C10: the per-shape rule for combinator-shaped property sub-schemas,
universally over the surrounding object schema, input object and property
(duplicate-free keys, `$ref`-free and default-free sub-schema, property
`undefined` in the input):
(1) when the combinators admit **no** potential type — the general reading of
"mutually incompatible branches" — nothing is injected: the property remains
`undefined` in the outcome's value;
(2) when `object` is the **only** potential type admitted (and the sub-schema
declares no properties of its own), an empty object is injected;
(3) `allOf` over two branches of distinct single types (the claim's "for
example, object and number") admits no type, as does
(4) a `{type: t}` clause with `not: {type: t}` forbidding that very type (the
claim's "forbids objects via a not clause" at `t = object`), while
(5–7) `allOf` with a single object branch, `oneOf` with a single object
branch, and a double-negated object `not` each admit exactly `object`;
(8) the overall outcome is still a success whenever every present, defined
declared member of the schema-applied value validates against its sub-schema
(the suite's own `noDefaultOneOf` shape — `oneOf` with an object branch
*among others* — admits more than one type, so it falls under neither (1)
nor (2) and correctly stays `undefined` without an injected object). -/
theorem c10_combinator_default_injection
    (res : String → Option Schema) (ps : List (String × Schema))
    (ms : List (String × Option JsonValue)) (k : String) (sub : Schema)
    (hnodup : (ps.map Prod.fst).Nodup) (hmem : (k, sub) ∈ ps)
    (hns : ¬ k = "$schema") (hany : sub.isAny = false)
    (hdef : sub.defaultField = none) (href : sub.refField = none)
    (hund : objLookup ms k = none ∨ objLookup ms k = some none) :
    (getTypesOfSchema 511 sub = [] →
      memberOf (registryValidate res (propsSchema ps) (some (.obj ms))).2 k = some none) ∧
    (getTypesOfSchema 511 sub = [.tObject] → sub.propertiesField = none →
      memberOf (registryValidate res (propsSchema ps) (some (.obj ms))).2 k
        = some (some (.obj []))) ∧
    (∀ t u : JsonType, ¬ t = u →
      getTypesOfSchema 511 (.node none none none none
        (some [typeSchema t, typeSchema u]) none none none none) = []) ∧
    (∀ t : JsonType,
      getTypesOfSchema 511 (.node (some [t]) none none none none none none
        (some (typeSchema t)) none) = []) ∧
    getTypesOfSchema 511 (.node none none none none (some [typeSchema .tObject])
        none none none none) = [.tObject] ∧
    getTypesOfSchema 511 (.node none none none none none (some [typeSchema .tObject])
        none none none) = [.tObject] ∧
    getTypesOfSchema 511 (.node none none none none none none none
        (some (.node none none none none none none none
          (some (typeSchema .tObject)) none)) none) = [.tObject] ∧
    ((∀ p ∈ ps, ∀ mv,
        memberOf (registryValidate res (propsSchema ps) (some (.obj ms))).2 p.1
          = some (some mv) →
        collectErrors res 511 p.2 [p.1] (some mv) = []) →
      (registryValidate res (propsSchema ps) (some (.obj ms))).1 = true) := by
  refine ⟨?_, ?_, ?_, ?_, rfl, rfl, rfl, ?_⟩
  · intro ht
    rw [memberOf_registryValidate_undef res ps ms k sub hnodup hmem hns hany hund, hdef]
    exact congrArg some (visitTransform_none_of_noTypes res 510 sub hany hdef href ht)
  · intro ht hprops
    rw [memberOf_registryValidate_undef res ps ms k sub hnodup hmem hns hany hund, hdef]
    exact congrArg some
      (visitTransform_emptyObject_of_objectType res 510 sub hany hdef href hprops ht)
  · intro t u htu
    cases t <;> cases u <;> first
      | exact absurd rfl htu
      | decide
  · intro t
    cases t <;> decide
  · exact registryValidate_propsSchema_success res ps ms

theorem c10_witness :
    memberOf (registryValidate noRefs transformsSchema1 (some (.obj []))).2 "objAllBad"
        = some none ∧
    memberOf (registryValidate noRefs transformsSchema1 (some (.obj []))).2 "objNotBad"
        = some none ∧
    memberOf (registryValidate noRefs transformsSchema1 (some (.obj []))).2 "objAllOk"
        = some (some (.obj [])) ∧
    memberOf (registryValidate noRefs transformsSchema1 (some (.obj []))).2 "objOne"
        = some (some (.obj [])) ∧
    memberOf (registryValidate noRefs transformsSchema1 (some (.obj []))).2 "objNotOk"
        = some (some (.obj [])) ∧
    (registryValidate noRefs transformsSchema1 (some (.obj []))).1 = true := by
  unfold transformsSchema1
  refine ⟨?_, ?_, ?_, ?_, ?_, ?_⟩
  · exact (c10_combinator_default_injection noRefs
      [("bool", typeSchema .tBoolean),
       ("str", typeDefaultSchema .tString (.str "someString")),
       ("obj", propsSchema [("num", typeSchema .tNumber),
                            ("other", typeDefaultSchema .tNumber (.num 0))]),
       ("objAllOk", .node none none none none (some [typeSchema .tObject]) none none none none),
       ("objAllBad", .node none none none none
          (some [typeSchema .tObject, typeSchema .tNumber]) none none none none),
       ("objOne", .node none none none none none (some [typeSchema .tObject]) none none none),
       ("objNotOk", .node none none none none none none none
          (some (.node none none none none none none none
            (some (typeSchema .tObject)) none)) none),
       ("objNotBad", .node (some [.tObject]) none none none none none none
          (some (typeSchema .tObject)) none)]
      [] "objAllBad"
      (.node none none none none (some [typeSchema .tObject, typeSchema .tNumber])
        none none none none)
      (by decide) (.tail _ (.tail _ (.tail _ (.tail _ (.head _))))) (by decide)
      rfl rfl rfl (.inl rfl)).1 rfl
  · exact (c10_combinator_default_injection noRefs
      [("bool", typeSchema .tBoolean),
       ("str", typeDefaultSchema .tString (.str "someString")),
       ("obj", propsSchema [("num", typeSchema .tNumber),
                            ("other", typeDefaultSchema .tNumber (.num 0))]),
       ("objAllOk", .node none none none none (some [typeSchema .tObject]) none none none none),
       ("objAllBad", .node none none none none
          (some [typeSchema .tObject, typeSchema .tNumber]) none none none none),
       ("objOne", .node none none none none none (some [typeSchema .tObject]) none none none),
       ("objNotOk", .node none none none none none none none
          (some (.node none none none none none none none
            (some (typeSchema .tObject)) none)) none),
       ("objNotBad", .node (some [.tObject]) none none none none none none
          (some (typeSchema .tObject)) none)]
      [] "objNotBad"
      (.node (some [.tObject]) none none none none none none
        (some (typeSchema .tObject)) none)
      (by decide)
      (.tail _ (.tail _ (.tail _ (.tail _ (.tail _ (.tail _ (.tail _ (.head _))))))))
      (by decide) rfl rfl rfl (.inl rfl)).1 rfl
  · exact ((c10_combinator_default_injection noRefs
      [("bool", typeSchema .tBoolean),
       ("str", typeDefaultSchema .tString (.str "someString")),
       ("obj", propsSchema [("num", typeSchema .tNumber),
                            ("other", typeDefaultSchema .tNumber (.num 0))]),
       ("objAllOk", .node none none none none (some [typeSchema .tObject]) none none none none),
       ("objAllBad", .node none none none none
          (some [typeSchema .tObject, typeSchema .tNumber]) none none none none),
       ("objOne", .node none none none none none (some [typeSchema .tObject]) none none none),
       ("objNotOk", .node none none none none none none none
          (some (.node none none none none none none none
            (some (typeSchema .tObject)) none)) none),
       ("objNotBad", .node (some [.tObject]) none none none none none none
          (some (typeSchema .tObject)) none)]
      [] "objAllOk"
      (.node none none none none (some [typeSchema .tObject]) none none none none)
      (by decide) (.tail _ (.tail _ (.tail _ (.head _)))) (by decide)
      rfl rfl rfl (.inl rfl)).2.1) rfl rfl
  · exact ((c10_combinator_default_injection noRefs
      [("bool", typeSchema .tBoolean),
       ("str", typeDefaultSchema .tString (.str "someString")),
       ("obj", propsSchema [("num", typeSchema .tNumber),
                            ("other", typeDefaultSchema .tNumber (.num 0))]),
       ("objAllOk", .node none none none none (some [typeSchema .tObject]) none none none none),
       ("objAllBad", .node none none none none
          (some [typeSchema .tObject, typeSchema .tNumber]) none none none none),
       ("objOne", .node none none none none none (some [typeSchema .tObject]) none none none),
       ("objNotOk", .node none none none none none none none
          (some (.node none none none none none none none
            (some (typeSchema .tObject)) none)) none),
       ("objNotBad", .node (some [.tObject]) none none none none none none
          (some (typeSchema .tObject)) none)]
      [] "objOne"
      (.node none none none none none (some [typeSchema .tObject]) none none none)
      (by decide) (.tail _ (.tail _ (.tail _ (.tail _ (.tail _ (.head _)))))) (by decide)
      rfl rfl rfl (.inl rfl)).2.1) rfl rfl
  · exact ((c10_combinator_default_injection noRefs
      [("bool", typeSchema .tBoolean),
       ("str", typeDefaultSchema .tString (.str "someString")),
       ("obj", propsSchema [("num", typeSchema .tNumber),
                            ("other", typeDefaultSchema .tNumber (.num 0))]),
       ("objAllOk", .node none none none none (some [typeSchema .tObject]) none none none none),
       ("objAllBad", .node none none none none
          (some [typeSchema .tObject, typeSchema .tNumber]) none none none none),
       ("objOne", .node none none none none none (some [typeSchema .tObject]) none none none),
       ("objNotOk", .node none none none none none none none
          (some (.node none none none none none none none
            (some (typeSchema .tObject)) none)) none),
       ("objNotBad", .node (some [.tObject]) none none none none none none
          (some (typeSchema .tObject)) none)]
      [] "objNotOk"
      (.node none none none none none none none
        (some (.node none none none none none none none
          (some (typeSchema .tObject)) none)) none)
      (by decide) (.tail _ (.tail _ (.tail _ (.tail _ (.tail _ (.tail _ (.head _)))))))
      (by decide) rfl rfl rfl (.inl rfl)).2.1) rfl rfl
  · apply (c10_combinator_default_injection noRefs
      [("bool", typeSchema .tBoolean),
       ("str", typeDefaultSchema .tString (.str "someString")),
       ("obj", propsSchema [("num", typeSchema .tNumber),
                            ("other", typeDefaultSchema .tNumber (.num 0))]),
       ("objAllOk", .node none none none none (some [typeSchema .tObject]) none none none none),
       ("objAllBad", .node none none none none
          (some [typeSchema .tObject, typeSchema .tNumber]) none none none none),
       ("objOne", .node none none none none none (some [typeSchema .tObject]) none none none),
       ("objNotOk", .node none none none none none none none
          (some (.node none none none none none none none
            (some (typeSchema .tObject)) none)) none),
       ("objNotBad", .node (some [.tObject]) none none none none none none
          (some (typeSchema .tObject)) none)]
      [] "bool" (typeSchema .tBoolean)
      (by decide) (.head _) (by decide) rfl rfl rfl (.inl rfl)).2.2.2.2.2.2.2
    intro p hp mv hmv
    simp only [List.mem_cons, List.not_mem_nil, or_false] at hp
    rcases hp with rfl | rfl | rfl | rfl | rfl | rfl | rfl | rfl
    · have hv : some (none : Option JsonValue) = some (some mv) := by
        rw [← hmv]; exact rfl
      injection hv with hv1
      exact Option.noConfusion hv1
    · have hv : some (some (JsonValue.str "someString")) = some (some mv) := by
        rw [← hmv]; exact rfl
      injection hv with hv1
      injection hv1 with hv2
      subst hv2
      rfl
    · have hv : some (some (JsonValue.obj [("num", none), ("other", some (.num 0))]))
          = some (some mv) := by
        rw [← hmv]; exact rfl
      injection hv with hv1
      injection hv1 with hv2
      subst hv2
      rfl
    · have hv : some (some (JsonValue.obj [])) = some (some mv) := by
        rw [← hmv]; exact rfl
      injection hv with hv1
      injection hv1 with hv2
      subst hv2
      rfl
    · have hv : some (none : Option JsonValue) = some (some mv) := by
        rw [← hmv]; exact rfl
      injection hv with hv1
      exact Option.noConfusion hv1
    · have hv : some (some (JsonValue.obj [])) = some (some mv) := by
        rw [← hmv]; exact rfl
      injection hv with hv1
      injection hv1 with hv2
      subst hv2
      rfl
    · have hv : some (some (JsonValue.obj [])) = some (some mv) := by
        rw [← hmv]; exact rfl
      injection hv with hv1
      injection hv1 with hv2
      subst hv2
      rfl
    · have hv : some (none : Option JsonValue) = some (some mv) := by
        rw [← hmv]; exact rfl
      injection hv with hv1
      exact Option.noConfusion hv1
